import Mathlib

/-!
# syncups3bucket: the event-driven bucket replication handler

A shallow embedding of `src/funcs/syncups3bucket/app.go`.

The Go functions `handler`, `copyFile`, `uploadFile`, `downloadFile` and
`deleteFile` become state-passing Lean functions over a `World`:

* the local filesystem (`os.Create`, `os.Open`, `os.Remove`),
* the object store behind the AWS SDK (`Download`, `Upload`, `DeleteObject`,
  `WaitUntilObjectNotExists`),
* the ordered trace of requests sent to the object store,
* the ordered list of environment variables read with `os.Getenv`,
* the ordered list of `copyFile` / `deleteFile` invocations made by `handler`.

Everything the code cannot control is collected in `Env`: the process
environment, the JSON decoder, which local paths can be created, and whether
the object store accepts a request (as a function of the requests sent so far,
so that the same request may succeed once and fail later).

The local filesystem is a map from paths to contents: `os.Open` and `os.Remove`
fail exactly when the path is absent, and `os.Create` fails exactly when the
environment says the path cannot be created. A request to the object store is
recorded in the trace whether or not it is accepted.

Log output is not modelled, except for `log.Fatalf`, which ends the process and
is the `Exit.fatal` result of `handler`.
-/

namespace SyncUpS3Bucket

/-- Contents of a file or of a stored object. -/
abbrev Bytes := List UInt8

/-- One request sent to the object store, with the role and region of the
session that sends it. -/
inductive Call where
  /-- The request of `s3manager.Downloader.Download`. -/
  | get (roleArn region bucket key : String)
  /-- The request of `s3manager.Uploader.Upload`. -/
  | put (roleArn region bucket key : String) (body : Bytes)
  /-- The request of `s3.DeleteObject`. -/
  | delete (roleArn region bucket key : String)
  /-- The request of `s3.WaitUntilObjectNotExists`. -/
  | waitNotExists (roleArn region bucket key : String)
  deriving DecidableEq

/-- An invocation made by the record loop of `handler`. -/
inductive Action where
  /-- The call `copyFile(bucketName, fileName, ...)`. -/
  | copy (bucketName fileName : String)
  /-- The call `deleteFile(fileName, ...)`. -/
  | delete (fileName : String)
  deriving DecidableEq

/-- The error values built with `fmt.Errorf`, one constructor per format string. -/
inductive Error where
  /-- The text "Unable to open file %s". -/
  | unableToOpen (fileName : String)
  /-- The text "Unable to download item %q, %v". -/
  | unableToDownload (fileName : String)
  /-- The text "Unable to upload %q to %q, %v". -/
  | unableToUpload (fileName bucketName : String)
  /-- The text "Unable to delete object %q from bucket %q, %v". -/
  | unableToDelete (fileName bucketName : String)
  /-- The text "Error occurred while waiting for object %q to be deleted, %v". -/
  | waitFailed (fileName : String)
  /-- The text "Downdload file error: %v". -/
  | downloadFileError (cause : Error)
  /-- The text "Upload file error: %v". -/
  | uploadFileError (cause : Error)
  /-- The text "Unable to delete temp file: %v". -/
  | unableToDeleteTemp
  deriving DecidableEq

/-- The fields of one element of `s3Event.Records` that `handler` reads. -/
structure Record where
  /-- Field `eventSource`. -/
  eventSource : String
  /-- Field `eventName`. -/
  eventName : String
  /-- Field `s3.bucket.name`. -/
  bucketName : String
  /-- Field `s3.object.key`. -/
  key : String
  deriving DecidableEq

/-- The state the program acts on. -/
structure World where
  /-- Local files by path. -/
  fs : String → Option Bytes
  /-- Stored objects by bucket and key. -/
  s3 : String → String → Option Bytes
  /-- Requests sent to the object store, oldest first. -/
  calls : List Call
  /-- Names passed to `os.Getenv`, oldest first. -/
  envReads : List String
  /-- Invocations of `copyFile` and `deleteFile` by `handler`, oldest first. -/
  actions : List Action

/-- What the program does not control. -/
structure Env where
  /-- The process environment. -/
  vars : String → Option String
  /-- The function `json.Unmarshal` into an `s3Event`: the records, or the error text. -/
  unmarshal : String → Except String (List Record)
  /-- Whether `os.Create` succeeds on a path. -/
  creatable : String → Bool
  /-- Whether the object store accepts a request, given the requests sent before it. -/
  permits : List Call → Call → Bool

/-- How one run of `handler` ends. The two plain returns of the Go function are
told apart: `aborted` is the `return` after a failed action inside the loop,
`done` is falling off the end of the loop. -/
inductive Exit where
  /-- The process ended in `log.Fatalf` with this message. -/
  | fatal (msg : String)
  /-- The handler returned after `copyFile` or `deleteFile` failed. -/
  | aborted
  /-- The handler returned after the last record. -/
  | done
  deriving DecidableEq

/-- The six settings as local variables of `handler`. -/
structure Config where
  /-- Variable `sourceRoleArn`. -/
  sourceRoleArn : String
  /-- Variable `sourceBucket`. -/
  sourceBucket : String
  /-- Variable `sourceBucketRegion`. -/
  sourceBucketRegion : String
  /-- Variable `targetRoleArn`. -/
  targetRoleArn : String
  /-- Variable `targetBucket`. -/
  targetBucket : String
  /-- Variable `targetBucketRegion`. -/
  targetBucketRegion : String
  deriving DecidableEq

/-! ## The local filesystem and the object store -/

/-- A file map with one path bound to new contents. -/
def writeFile (fs : String → Option Bytes) (name : String) (b : Bytes) : String → Option Bytes :=
  fun n => if n = name then some b else fs n

/-- A file map with one path removed. -/
def removeFile (fs : String → Option Bytes) (name : String) : String → Option Bytes :=
  fun n => if n = name then none else fs n

/-- An object store with one object written. -/
def putObject (s3 : String → String → Option Bytes) (bucket key : String) (b : Bytes) :
    String → String → Option Bytes :=
  fun bk k => if bk = bucket ∧ k = key then some b else s3 bk k

/-- An object store with one object removed. -/
def deleteObject (s3 : String → String → Option Bytes) (bucket key : String) :
    String → String → Option Bytes :=
  fun bk k => if bk = bucket ∧ k = key then none else s3 bk k

/-- The function `os.Getenv`: the value, or the empty string when the variable is
not set; the read is recorded. -/
def getenv (env : Env) (name : String) (w : World) : String × World :=
  ((env.vars name).getD "", { w with envReads := w.envReads ++ [name] })

/-- The function `os.Create`: fails when the path cannot be created, otherwise the
file exists and is empty. -/
def osCreate (env : Env) (name : String) (w : World) : Bool × World :=
  if env.creatable name then (true, { w with fs := writeFile w.fs name [] })
  else (false, w)

/-- The function `os.Open` followed by reading the file: the contents, or nothing
when the file does not exist. -/
def osOpen (name : String) (w : World) : Option Bytes :=
  w.fs name

/-- The function `os.Remove`: fails when the file does not exist. -/
def osRemove (name : String) (w : World) : Bool × World :=
  match w.fs name with
  | none => (false, w)
  | some _ => (true, { w with fs := removeFile w.fs name })

/-- The method `Downloader.Download` into an open file: the request is sent; it
succeeds when the store accepts it and the object exists, and then the object's
bytes are the file's contents. -/
def sdkDownload (env : Env) (file roleArn region bucket key : String) (w : World) :
    Option Bytes × World :=
  let c := Call.get roleArn region bucket key
  let accepted := env.permits w.calls c
  let w := { w with calls := w.calls ++ [c] }
  if accepted then
    match w.s3 bucket key with
    | none => (none, w)
    | some b => (some b, { w with fs := writeFile w.fs file b })
  else (none, w)

/-- The method `Uploader.Upload`: the request is sent with the body; when the
store accepts it the object is written. -/
def sdkUpload (env : Env) (roleArn region bucket key : String) (body : Bytes) (w : World) :
    Bool × World :=
  let c := Call.put roleArn region bucket key body
  let accepted := env.permits w.calls c
  let w := { w with calls := w.calls ++ [c] }
  if accepted then (true, { w with s3 := putObject w.s3 bucket key body })
  else (false, w)

/-- The method `S3.DeleteObject`: the request is sent; when the store accepts it
the object is gone. -/
def sdkDeleteObject (env : Env) (roleArn region bucket key : String) (w : World) :
    Bool × World :=
  let c := Call.delete roleArn region bucket key
  let accepted := env.permits w.calls c
  let w := { w with calls := w.calls ++ [c] }
  if accepted then (true, { w with s3 := deleteObject w.s3 bucket key })
  else (false, w)

/-- The method `S3.WaitUntilObjectNotExists`: the request is sent; it reports
success when the store answers and the object is absent. -/
def sdkWaitUntilObjectNotExists (env : Env) (roleArn region bucket key : String) (w : World) :
    Bool × World :=
  let c := Call.waitNotExists roleArn region bucket key
  let accepted := env.permits w.calls c
  let w := { w with calls := w.calls ++ [c] }
  (accepted && (w.s3 bucket key).isNone, w)

/-! ## The functions of `app.go` -/

/-- The function `downloadFile`. -/
def downloadFile (env : Env) (bucketName fileName roleArn region : String) (w : World) :
    Except Error String × World :=
  let newFileName := "copy_" ++ fileName
  match osCreate env newFileName w with
  | (false, w) => (.error (.unableToOpen newFileName), w)
  | (true, w) =>
    match sdkDownload env newFileName roleArn region bucketName fileName w with
    | (none, w) => (.error (.unableToDownload fileName), w)
    | (some _, w) => (.ok newFileName, w)

/-- The function `uploadFile`. -/
def uploadFile (env : Env) (bucketName fileName roleArn region : String) (w : World) :
    Except Error Unit × World :=
  match osOpen fileName w with
  | none => (.error (.unableToOpen fileName), w)
  | some file =>
    match sdkUpload env roleArn region bucketName fileName file w with
    | (false, w) => (.error (.unableToUpload fileName bucketName), w)
    | (true, w) => (.ok (), w)

/-- The function `copyFile`. -/
def copyFile (env : Env) (bucketName fileName sourceRoleArn sourceRgion targetRoleArn
    targetBucket targetRgion : String) (w : World) : Except Error Unit × World :=
  match downloadFile env bucketName fileName sourceRoleArn sourceRgion w with
  | (.error err, w) => (.error (.downloadFileError err), w)
  | (.ok newFile, w) =>
    match uploadFile env targetBucket newFile targetRoleArn targetRgion w with
    | (.error err, w) => (.error (.uploadFileError err), w)
    | (.ok _, w) =>
      match osRemove newFile w with
      | (false, w) => (.error .unableToDeleteTemp, w)
      | (true, w) => (.ok (), w)

/-- The function `deleteFile`. -/
def deleteFile (env : Env) (fileName roleArn bucketName region : String) (w : World) :
    Except Error Unit × World :=
  let newFileName := "copy_" ++ fileName
  match sdkDeleteObject env roleArn region bucketName newFileName w with
  | (false, w) => (.error (.unableToDelete newFileName bucketName), w)
  | (true, w) =>
    match sdkWaitUntilObjectNotExists env roleArn region bucketName newFileName w with
    | (false, w) => (.error (.waitFailed newFileName), w)
    | (true, w) => (.ok (), w)

/-- The world in which the handler starts the action for a record: the
invocation has been recorded. -/
def invoked (a : Action) (w : World) : World :=
  { w with actions := w.actions ++ [a] }

/-- The loop `for _, v := range event.Records` of `handler`, with the six
settings already read. -/
def handlerLoop (env : Env) (cfg : Config) : List Record → World → Exit × World
  | [], w => (.done, w)
  | v :: rest, w =>
    if v.eventSource ≠ "aws:s3" then handlerLoop env cfg rest w
    else
      let fileName := v.key
      let bucketName := v.bucketName
      if bucketName ≠ cfg.sourceBucket then handlerLoop env cfg rest w
      else if v.eventName = "ObjectCreated:Put" then
        let w := invoked (Action.copy bucketName fileName) w
        match copyFile env bucketName fileName cfg.sourceRoleArn cfg.sourceBucketRegion
            cfg.targetRoleArn cfg.targetBucket cfg.targetBucketRegion w with
        | (.error _, w) => (.aborted, w)
        | (.ok _, w) => handlerLoop env cfg rest w
      else if v.eventName = "ObjectRemoved:Delete" then
        let w := invoked (Action.delete fileName) w
        match deleteFile env fileName cfg.targetRoleArn cfg.targetBucket
            cfg.targetBucketRegion w with
        | (.error _, w) => (.aborted, w)
        | (.ok _, w) => handlerLoop env cfg rest w
      else handlerLoop env cfg rest w

/-- The function `handler`, given the message body. -/
def handler (env : Env) (body : String) (w : World) : Exit × World :=
  match env.unmarshal body with
  | .error err => (.fatal ("Failed to unmarshal message: " ++ err ++ "\n"), w)
  | .ok records =>
    match getenv env "SOURCE_ROLE_ARN" w with
    | (sourceRoleArn, w) =>
    if sourceRoleArn = "" then (.fatal "SOURCE_ROLE_ARN is not configured in ENV.\n", w) else
    match getenv env "SOURCE_BUCKET" w with
    | (sourceBucket, w) =>
    if sourceBucket = "" then (.fatal "SOURCE_BUCKET is not configured in ENV.\n", w) else
    match getenv env "SOURCE_BUCKET_REGION" w with
    | (sourceBucketRegion, w) =>
    if sourceBucketRegion = "" then
      (.fatal "SOURCE_BUCKET_REGION is not configured in ENV.\n", w) else
    match getenv env "TARGET_ROLE_ARN" w with
    | (targetRoleArn, w) =>
    if targetRoleArn = "" then (.fatal "TARGET_ROLE_ARN is not configured in ENV.\n", w) else
    match getenv env "TARGET_BUCKET" w with
    | (targetBucket, w) =>
    if targetBucket = "" then (.fatal "TARGET_BUCKET is not configured in ENV.\n", w) else
    match getenv env "TARGET_BUCKET_REGION" w with
    | (targetBucketRegion, w) =>
    if targetBucketRegion = "" then
      (.fatal "TARGET_BUCKET_REGION is not configured in ENV.\n", w) else
    handlerLoop env
      { sourceRoleArn := sourceRoleArn, sourceBucket := sourceBucket,
        sourceBucketRegion := sourceBucketRegion, targetRoleArn := targetRoleArn,
        targetBucket := targetBucket, targetBucketRegion := targetBucketRegion }
      records w

/-! ## Concrete inputs -/

/-- A world with no local file, no stored object and an empty history. -/
def emptyWorld : World :=
  { fs := fun _ => none, s3 := fun _ _ => none, calls := [], envReads := [], actions := [] }

/-- A world whose bucket "src" holds the object "a.txt" with three bytes. -/
def sampleWorld : World :=
  { emptyWorld with s3 := putObject emptyWorld.s3 "src" "a.txt" [1, 2, 3] }

/-- The record of an object put into a bucket. -/
def putRecord (bucket key : String) : Record :=
  { eventSource := "aws:s3", eventName := "ObjectCreated:Put", bucketName := bucket, key := key }

/-- The record of an object deleted from a bucket. -/
def deleteRecord (bucket key : String) : Record :=
  { eventSource := "aws:s3", eventName := "ObjectRemoved:Delete", bucketName := bucket,
    key := key }

/-- A put record for a bucket that is not the configured source bucket. -/
def otherBucketRecord : Record :=
  { eventSource := "aws:s3", eventName := "ObjectCreated:Put", bucketName := "other",
    key := "a.txt" }

/-- A record of the source bucket with an event name the handler does not know. -/
def multipartRecord : Record :=
  { eventSource := "aws:s3", eventName := "ObjectCreated:CompleteMultipartUpload",
    bucketName := "src", key := "a.txt" }

/-- An environment where every path can be created and the store accepts every
request; every body decodes to a put of "a.txt" in "src" followed by its
deletion. -/
def okEnv : Env :=
  { vars := fun n =>
      if n = "SOURCE_ROLE_ARN" then some "role-s"
      else if n = "SOURCE_BUCKET" then some "src"
      else if n = "SOURCE_BUCKET_REGION" then some "us-west-2"
      else if n = "TARGET_ROLE_ARN" then some "role-t"
      else if n = "TARGET_BUCKET" then some "dst"
      else if n = "TARGET_BUCKET_REGION" then some "eu-west-1"
      else none,
    unmarshal := fun _ => .ok [putRecord "src" "a.txt", deleteRecord "src" "a.txt"],
    creatable := fun _ => true,
    permits := fun _ _ => true }

/-- The environment `okEnv` with a decoder that rejects every body. -/
def badJsonEnv : Env :=
  { okEnv with unmarshal := fun _ => .error "unexpected end of JSON input" }

/-- The environment `okEnv` without the variable TARGET_BUCKET. -/
def noTargetBucketEnv : Env :=
  { okEnv with vars := fun n => if n = "TARGET_BUCKET" then none else okEnv.vars n }

/-- The environment `okEnv` with a store that rejects every upload. -/
def uploadDeniedEnv : Env :=
  { okEnv with permits := fun _ c =>
      match c with
      | .put _ _ _ _ _ => false
      | _ => true }

/-- The environment `okEnv` with a store that rejects every download. -/
def downloadDeniedEnv : Env :=
  { okEnv with permits := fun _ c =>
      match c with
      | .get _ _ _ _ => false
      | _ => true }

/-- The environment `okEnv` with a store that rejects every delete request. -/
def deleteDeniedEnv : Env :=
  { okEnv with permits := fun _ c =>
      match c with
      | .delete _ _ _ _ => false
      | _ => true }

/-- The environment `okEnv` with a store whose wait for absence always times out. -/
def waitTimeoutEnv : Env :=
  { okEnv with permits := fun _ c =>
      match c with
      | .waitNotExists _ _ _ _ => false
      | _ => true }

/-- The settings of `okEnv`. -/
def okCfg : Config :=
  { sourceRoleArn := "role-s", sourceBucket := "src", sourceBucketRegion := "us-west-2",
    targetRoleArn := "role-t", targetBucket := "dst", targetBucketRegion := "eu-west-1" }

/-- The world `sampleWorld` after the put of "a.txt" has been replicated while
deletes are rejected. -/
def afterPutWorld : World :=
  (handlerLoop deleteDeniedEnv okCfg [putRecord "src" "a.txt"] sampleWorld).2

/-! ## The specification's vocabulary -/

/-- The six required settings, in the order the handler reads them. -/
def settingNames : List String :=
  ["SOURCE_ROLE_ARN", "SOURCE_BUCKET", "SOURCE_BUCKET_REGION",
   "TARGET_ROLE_ARN", "TARGET_BUCKET", "TARGET_BUCKET_REGION"]

/-- A setting is absent or empty. -/
def Missing (env : Env) (name : String) : Prop :=
  env.vars name = none ∨ env.vars name = some ""

/-- The environment holds the six settings of `cfg`, none of them empty. -/
def Configured (env : Env) (cfg : Config) : Prop :=
  (env.vars "SOURCE_ROLE_ARN" = some cfg.sourceRoleArn ∧ cfg.sourceRoleArn ≠ "") ∧
  (env.vars "SOURCE_BUCKET" = some cfg.sourceBucket ∧ cfg.sourceBucket ≠ "") ∧
  (env.vars "SOURCE_BUCKET_REGION" = some cfg.sourceBucketRegion ∧
    cfg.sourceBucketRegion ≠ "") ∧
  (env.vars "TARGET_ROLE_ARN" = some cfg.targetRoleArn ∧ cfg.targetRoleArn ≠ "") ∧
  (env.vars "TARGET_BUCKET" = some cfg.targetBucket ∧ cfg.targetBucket ≠ "") ∧
  (env.vars "TARGET_BUCKET_REGION" = some cfg.targetBucketRegion ∧
    cfg.targetBucketRegion ≠ "")

/-- A request is made with the identity the configuration assigns to its kind:
reads with the source role and region on the source bucket; writes, deletes and
waits with the target role and region on the target bucket. -/
def callOk (cfg : Config) : Call → Prop
  | .get roleArn region bucket _ =>
    roleArn = cfg.sourceRoleArn ∧ region = cfg.sourceBucketRegion ∧ bucket = cfg.sourceBucket
  | .put roleArn region bucket _ _ =>
    roleArn = cfg.targetRoleArn ∧ region = cfg.targetBucketRegion ∧ bucket = cfg.targetBucket
  | .delete roleArn region bucket _ =>
    roleArn = cfg.targetRoleArn ∧ region = cfg.targetBucketRegion ∧ bucket = cfg.targetBucket
  | .waitNotExists roleArn region bucket _ =>
    roleArn = cfg.targetRoleArn ∧ region = cfg.targetBucketRegion ∧ bucket = cfg.targetBucket

/-- A request is made with the other side's role: a read with the target role,
or a write, delete or wait with the source role. -/
def crossesIdentity (cfg : Config) : Call → Prop
  | .get roleArn _ _ _ => roleArn = cfg.targetRoleArn
  | .put roleArn _ _ _ _ => roleArn = cfg.sourceRoleArn
  | .delete roleArn _ _ _ => roleArn = cfg.sourceRoleArn
  | .waitNotExists roleArn _ _ _ => roleArn = cfg.sourceRoleArn

/-! ## Configuration and decoding -/

theorem getD_eq_empty_iff (env : Env) (name : String) :
    (env.vars name).getD "" = "" ↔ Missing env name := by
  unfold Missing
  cases h : env.vars name with
  | none => simp
  | some v => simp

/-- C9: when the body does not decode, the handler ends in the fatal
"Failed to unmarshal message" exit and the world is untouched: no environment
variable has been read, no action invoked and no request sent. -/
theorem handler_unmarshal_error (env : Env) (body err : String) (w : World)
    (h : env.unmarshal body = .error err) :
    handler env body w = (.fatal ("Failed to unmarshal message: " ++ err ++ "\n"), w) := by
  simp [handler, h]

theorem handler_unmarshal_error_witness :
    badJsonEnv.unmarshal "\x7b" = .error "unexpected end of JSON input" ∧
    handler badJsonEnv "\x7b" sampleWorld =
      (.fatal ("Failed to unmarshal message: " ++ "unexpected end of JSON input" ++ "\n"),
        sampleWorld) :=
  ⟨rfl, handler_unmarshal_error badJsonEnv _ _ sampleWorld rfl⟩

/-- With the six settings present, the handler reads them in order and runs the
record loop on the decoded records. -/
theorem handler_configured (env : Env) (cfg : Config) (body : String)
    (records : List Record) (w : World)
    (hparse : env.unmarshal body = .ok records) (hcfg : Configured env cfg) :
    handler env body w =
      handlerLoop env cfg records { w with envReads := w.envReads ++ settingNames } := by
  obtain ⟨⟨h1, n1⟩, ⟨h2, n2⟩, ⟨h3, n3⟩, ⟨h4, n4⟩, ⟨h5, n5⟩, ⟨h6, n6⟩⟩ := hcfg
  simp [handler, hparse, getenv, h1, h2, h3, h4, h5, h6, n1, n2, n3, n4, n5, n6,
    settingNames]

/-- C5: when the body decodes and one of the six settings is absent or empty,
the handler ends in the fatal exit whose message names the first such setting in
reading order; it has read the settings up to that one and no further, and
nothing else in the world has changed (no action invoked, no request sent). -/
theorem handler_missing_setting (env : Env) (body : String) (records : List Record)
    (w : World) (hparse : env.unmarshal body = .ok records)
    (hmiss : ∃ n ∈ settingNames, Missing env n) :
    ∃ before name after,
      settingNames = before ++ name :: after ∧
      (∀ m ∈ before, ¬ Missing env m) ∧
      Missing env name ∧
      handler env body w =
        (.fatal (name ++ " is not configured in ENV.\n"),
          { w with envReads := w.envReads ++ (before ++ [name]) }) := by
  by_cases h1 : Missing env "SOURCE_ROLE_ARN"
  · refine ⟨[], "SOURCE_ROLE_ARN", _, rfl, by simp, h1, ?_⟩
    have e1 := (getD_eq_empty_iff env _).mpr h1
    simp [handler, hparse, getenv, e1]
  by_cases h2 : Missing env "SOURCE_BUCKET"
  · refine ⟨["SOURCE_ROLE_ARN"], "SOURCE_BUCKET", _, rfl, by simpa using h1, h2, ?_⟩
    have e1 := mt (getD_eq_empty_iff env _).mp h1
    have e2 := (getD_eq_empty_iff env _).mpr h2
    simp [handler, hparse, getenv, e1, e2]
  by_cases h3 : Missing env "SOURCE_BUCKET_REGION"
  · refine ⟨["SOURCE_ROLE_ARN", "SOURCE_BUCKET"], "SOURCE_BUCKET_REGION", _, rfl,
      by simpa using ⟨h1, h2⟩, h3, ?_⟩
    have e1 := mt (getD_eq_empty_iff env _).mp h1
    have e2 := mt (getD_eq_empty_iff env _).mp h2
    have e3 := (getD_eq_empty_iff env _).mpr h3
    simp [handler, hparse, getenv, e1, e2, e3]
  by_cases h4 : Missing env "TARGET_ROLE_ARN"
  · refine ⟨["SOURCE_ROLE_ARN", "SOURCE_BUCKET", "SOURCE_BUCKET_REGION"],
      "TARGET_ROLE_ARN", _, rfl, by simpa using ⟨h1, h2, h3⟩, h4, ?_⟩
    have e1 := mt (getD_eq_empty_iff env _).mp h1
    have e2 := mt (getD_eq_empty_iff env _).mp h2
    have e3 := mt (getD_eq_empty_iff env _).mp h3
    have e4 := (getD_eq_empty_iff env _).mpr h4
    simp [handler, hparse, getenv, e1, e2, e3, e4]
  by_cases h5 : Missing env "TARGET_BUCKET"
  · refine ⟨["SOURCE_ROLE_ARN", "SOURCE_BUCKET", "SOURCE_BUCKET_REGION",
      "TARGET_ROLE_ARN"], "TARGET_BUCKET", _, rfl, by simpa using ⟨h1, h2, h3, h4⟩, h5, ?_⟩
    have e1 := mt (getD_eq_empty_iff env _).mp h1
    have e2 := mt (getD_eq_empty_iff env _).mp h2
    have e3 := mt (getD_eq_empty_iff env _).mp h3
    have e4 := mt (getD_eq_empty_iff env _).mp h4
    have e5 := (getD_eq_empty_iff env _).mpr h5
    simp [handler, hparse, getenv, e1, e2, e3, e4, e5]
  by_cases h6 : Missing env "TARGET_BUCKET_REGION"
  · refine ⟨["SOURCE_ROLE_ARN", "SOURCE_BUCKET", "SOURCE_BUCKET_REGION",
      "TARGET_ROLE_ARN", "TARGET_BUCKET"], "TARGET_BUCKET_REGION", _, rfl,
      by simpa using ⟨h1, h2, h3, h4, h5⟩, h6, ?_⟩
    have e1 := mt (getD_eq_empty_iff env _).mp h1
    have e2 := mt (getD_eq_empty_iff env _).mp h2
    have e3 := mt (getD_eq_empty_iff env _).mp h3
    have e4 := mt (getD_eq_empty_iff env _).mp h4
    have e5 := mt (getD_eq_empty_iff env _).mp h5
    have e6 := (getD_eq_empty_iff env _).mpr h6
    simp [handler, hparse, getenv, e1, e2, e3, e4, e5, e6]
  exfalso
  obtain ⟨n, hn, hm⟩ := hmiss
  simp only [settingNames, List.mem_cons, List.mem_singleton, List.not_mem_nil,
    or_false] at hn
  rcases hn with rfl | rfl | rfl | rfl | rfl | rfl
  · exact h1 hm
  · exact h2 hm
  · exact h3 hm
  · exact h4 hm
  · exact h5 hm
  · exact h6 hm

theorem handler_missing_setting_witness :
    (∃ n ∈ settingNames, Missing noTargetBucketEnv n) ∧
    ∃ before name after,
      settingNames = before ++ name :: after ∧
      (∀ m ∈ before, ¬ Missing noTargetBucketEnv m) ∧
      Missing noTargetBucketEnv name ∧
      handler noTargetBucketEnv "" sampleWorld =
        (.fatal (name ++ " is not configured in ENV.\n"),
          { sampleWorld with envReads := sampleWorld.envReads ++ (before ++ [name]) }) :=
  ⟨⟨"TARGET_BUCKET", by decide, Or.inl rfl⟩,
    handler_missing_setting noTargetBucketEnv "" _ sampleWorld rfl
      ⟨"TARGET_BUCKET", by decide, Or.inl rfl⟩⟩

/-! ## Copy -/

theorem copy_name_ne (key : String) : "copy_" ++ key ≠ key := by
  intro h
  have hl := congrArg String.length h
  rw [String.length_append] at hl
  have h5 : "copy_".length = 5 := by decide
  omega

/-- When `copyFile` succeeds, the staging file is gone. -/
theorem copyFile_ok_removes (env : Env) (bucket key sRole sRegion tRole tBucket tRegion : String)
    (w : World)
    (h : (copyFile env bucket key sRole sRegion tRole tBucket tRegion w).1 = .ok ()) :
    (copyFile env bucket key sRole sRegion tRole tBucket tRegion w).2.fs ("copy_" ++ key)
      = none := by
  revert h
  by_cases hc : env.creatable ("copy_" ++ key) = true <;>
  by_cases hp : env.permits w.calls (Call.get sRole sRegion bucket key) = true <;>
  cases hb : w.s3 bucket key <;>
  simp [copyFile, downloadFile, osCreate, sdkDownload, hc, hp, hb]
  rename_i b
  by_cases hu : env.permits (w.calls ++ [Call.get sRole sRegion bucket key])
      (Call.put tRole tRegion tBucket ("copy_" ++ key) b) = true <;>
  simp [uploadFile, osOpen, sdkUpload, osRemove, writeFile, removeFile, hu]

/-- C1 (the code at the failing inputs): the staging file "copy_a.txt" does not
exist before the call; when the upload is rejected `copyFile` returns the upload
error and the file is still there with the downloaded bytes; when the download is
rejected `copyFile` returns the download error and the empty file is still
there. -/
theorem copyFile_leaves_staging_file :
    sampleWorld.fs "copy_a.txt" = none ∧
    (copyFile uploadDeniedEnv "src" "a.txt" "role-s" "us-west-2" "role-t" "dst" "eu-west-1"
      sampleWorld).1 = .error (.uploadFileError (.unableToUpload "copy_a.txt" "dst")) ∧
    (copyFile uploadDeniedEnv "src" "a.txt" "role-s" "us-west-2" "role-t" "dst" "eu-west-1"
      sampleWorld).2.fs "copy_a.txt" = some [1, 2, 3] ∧
    (copyFile downloadDeniedEnv "src" "a.txt" "role-s" "us-west-2" "role-t" "dst" "eu-west-1"
      sampleWorld).1 = .error (.downloadFileError (.unableToDownload "a.txt")) ∧
    (copyFile downloadDeniedEnv "src" "a.txt" "role-s" "us-west-2" "role-t" "dst" "eu-west-1"
      sampleWorld).2.fs "copy_a.txt" = some [] :=
  ⟨rfl, rfl, rfl, rfl, rfl⟩

/-- C2: when the download leg succeeds and the source object holds the bytes
`b`, the requests `copyFile` sends are the download followed by exactly one
upload, made to the target bucket under the key "copy_" + key with body `b`;
that key is never the original key. -/
theorem copyFile_single_upload (env : Env)
    (bucket key sRole sRegion tRole tBucket tRegion name : String) (b : Bytes) (w : World)
    (hdl : (downloadFile env bucket key sRole sRegion w).1 = .ok name)
    (hb : w.s3 bucket key = some b) :
    (copyFile env bucket key sRole sRegion tRole tBucket tRegion w).2.calls =
      w.calls ++ [Call.get sRole sRegion bucket key,
        Call.put tRole tRegion tBucket ("copy_" ++ key) b] ∧
    "copy_" ++ key ≠ key := by
  refine ⟨?_, copy_name_ne key⟩
  revert hdl
  by_cases hc : env.creatable ("copy_" ++ key) = true <;>
  by_cases hp : env.permits w.calls (Call.get sRole sRegion bucket key) = true <;>
  simp [copyFile, downloadFile, osCreate, sdkDownload, hc, hp, hb]
  by_cases hu : env.permits (w.calls ++ [Call.get sRole sRegion bucket key])
      (Call.put tRole tRegion tBucket ("copy_" ++ key) b) = true <;>
  simp [uploadFile, osOpen, sdkUpload, osRemove, writeFile, removeFile, hu]

theorem copyFile_single_upload_witness :
    (downloadFile okEnv "src" "a.txt" "role-s" "us-west-2" sampleWorld).1 = .ok "copy_a.txt" ∧
    sampleWorld.s3 "src" "a.txt" = some [1, 2, 3] ∧
    (copyFile okEnv "src" "a.txt" "role-s" "us-west-2" "role-t" "dst" "eu-west-1"
      sampleWorld).2.calls =
      sampleWorld.calls ++ [Call.get "role-s" "us-west-2" "src" "a.txt",
        Call.put "role-t" "eu-west-1" "dst" ("copy_" ++ "a.txt") [1, 2, 3]] ∧
    "copy_" ++ "a.txt" ≠ "a.txt" :=
  ⟨rfl, rfl,
    copyFile_single_upload okEnv "src" "a.txt" "role-s" "us-west-2" "role-t" "dst" "eu-west-1"
      "copy_a.txt" [1, 2, 3] sampleWorld rfl rfl⟩

/-! ## Delete -/

/-- C3: `deleteFile` returns success exactly when the delete request was
accepted and the wait for absence that follows it reported the object gone; a
rejected delete request is the only request sent (the wait is not attempted);
and every other outcome is one of the two errors, never success. -/
theorem deleteFile_ok_iff (env : Env) (fileName roleArn bucketName region : String)
    (w : World) :
    ((deleteFile env fileName roleArn bucketName region w).1 = .ok () ↔
      (sdkDeleteObject env roleArn region bucketName ("copy_" ++ fileName) w).1 = true ∧
      (sdkWaitUntilObjectNotExists env roleArn region bucketName ("copy_" ++ fileName)
        (sdkDeleteObject env roleArn region bucketName ("copy_" ++ fileName) w).2).1 = true) ∧
    (deleteFile env fileName roleArn bucketName region w).2.calls =
      w.calls ++
        (if (sdkDeleteObject env roleArn region bucketName ("copy_" ++ fileName) w).1 = true
          then [Call.delete roleArn region bucketName ("copy_" ++ fileName),
            Call.waitNotExists roleArn region bucketName ("copy_" ++ fileName)]
          else [Call.delete roleArn region bucketName ("copy_" ++ fileName)]) ∧
    (deleteFile env fileName roleArn bucketName region w).1 =
      (if (sdkDeleteObject env roleArn region bucketName ("copy_" ++ fileName) w).1 = true
        then
          (if (sdkWaitUntilObjectNotExists env roleArn region bucketName ("copy_" ++ fileName)
              (sdkDeleteObject env roleArn region bucketName ("copy_" ++ fileName) w).2).1
              = true
            then .ok ()
            else .error (.waitFailed ("copy_" ++ fileName)))
        else .error (.unableToDelete ("copy_" ++ fileName) bucketName)) := by
  by_cases hd : env.permits w.calls
      (Call.delete roleArn region bucketName ("copy_" ++ fileName)) = true <;>
  by_cases hw : env.permits
      (w.calls ++ [Call.delete roleArn region bucketName ("copy_" ++ fileName)])
      (Call.waitNotExists roleArn region bucketName ("copy_" ++ fileName)) = true <;>
  simp [deleteFile, sdkDeleteObject, sdkWaitUntilObjectNotExists, deleteObject, hd, hw]

/-- When `deleteFile` succeeds, the object "copy_" + fileName is absent from the
bucket. -/
theorem deleteFile_ok_absent (env : Env) (fileName roleArn bucketName region : String)
    (w : World) (h : (deleteFile env fileName roleArn bucketName region w).1 = .ok ()) :
    (deleteFile env fileName roleArn bucketName region w).2.s3 bucketName
      ("copy_" ++ fileName) = none := by
  revert h
  by_cases hd : env.permits w.calls
      (Call.delete roleArn region bucketName ("copy_" ++ fileName)) = true <;>
  by_cases hw : env.permits
      (w.calls ++ [Call.delete roleArn region bucketName ("copy_" ++ fileName)])
      (Call.waitNotExists roleArn region bucketName ("copy_" ++ fileName)) = true <;>
  simp [deleteFile, sdkDeleteObject, sdkWaitUntilObjectNotExists, deleteObject, hd, hw]

/-- The two failures of `deleteFile` on concrete inputs: a rejected delete request
is reported without a wait, and a wait that times out is reported as an error
although the delete request was accepted. -/
theorem deleteFile_failures :
    (deleteFile deleteDeniedEnv "a.txt" "role-t" "dst" "eu-west-1" sampleWorld).1 =
      .error (.unableToDelete "copy_a.txt" "dst") ∧
    (deleteFile deleteDeniedEnv "a.txt" "role-t" "dst" "eu-west-1" sampleWorld).2.calls =
      [Call.delete "role-t" "eu-west-1" "dst" "copy_a.txt"] ∧
    (deleteFile waitTimeoutEnv "a.txt" "role-t" "dst" "eu-west-1" sampleWorld).1 =
      .error (.waitFailed "copy_a.txt") ∧
    (deleteFile waitTimeoutEnv "a.txt" "role-t" "dst" "eu-west-1" sampleWorld).2.calls =
      [Call.delete "role-t" "eu-west-1" "dst" "copy_a.txt",
        Call.waitNotExists "role-t" "eu-west-1" "dst" "copy_a.txt"] :=
  ⟨rfl, rfl, rfl, rfl⟩

/-! ## The record loop -/

theorem copyFile_actions (env : Env) (bucket key sRole sRegion tRole tBucket tRegion : String)
    (w : World) :
    (copyFile env bucket key sRole sRegion tRole tBucket tRegion w).2.actions = w.actions := by
  by_cases hc : env.creatable ("copy_" ++ key) = true <;>
  by_cases hp : env.permits w.calls (Call.get sRole sRegion bucket key) = true <;>
  cases hb : w.s3 bucket key <;>
  simp [copyFile, downloadFile, osCreate, sdkDownload, hc, hp, hb]
  rename_i b
  by_cases hu : env.permits (w.calls ++ [Call.get sRole sRegion bucket key])
      (Call.put tRole tRegion tBucket ("copy_" ++ key) b) = true <;>
  simp [uploadFile, osOpen, sdkUpload, osRemove, writeFile, removeFile, hu]

theorem deleteFile_actions (env : Env) (fileName roleArn bucketName region : String)
    (w : World) :
    (deleteFile env fileName roleArn bucketName region w).2.actions = w.actions := by
  by_cases hd : env.permits w.calls
      (Call.delete roleArn region bucketName ("copy_" ++ fileName)) = true <;>
  by_cases hw : env.permits
      (w.calls ++ [Call.delete roleArn region bucketName ("copy_" ++ fileName)])
      (Call.waitNotExists roleArn region bucketName ("copy_" ++ fileName)) = true <;>
  simp [deleteFile, sdkDeleteObject, sdkWaitUntilObjectNotExists, deleteObject, hd, hw]

/-- The requests `copyFile` sends with the handler's arguments all carry the
identity the configuration assigns to their kind. -/
theorem copyFile_calls (env : Env) (cfg : Config) (bucket key : String) (w : World)
    (hbucket : bucket = cfg.sourceBucket) :
    ∃ cs, (copyFile env bucket key cfg.sourceRoleArn cfg.sourceBucketRegion
        cfg.targetRoleArn cfg.targetBucket cfg.targetBucketRegion w).2.calls = w.calls ++ cs ∧
      ∀ c ∈ cs, callOk cfg c := by
  subst hbucket
  by_cases hc : env.creatable ("copy_" ++ key) = true
  swap
  · exact ⟨[], by simp [copyFile, downloadFile, osCreate, hc], by simp⟩
  by_cases hp : env.permits w.calls
      (Call.get cfg.sourceRoleArn cfg.sourceBucketRegion cfg.sourceBucket key) = true
  swap
  · exact ⟨[Call.get cfg.sourceRoleArn cfg.sourceBucketRegion cfg.sourceBucket key],
      by simp [copyFile, downloadFile, osCreate, sdkDownload, hc, hp], by simp [callOk]⟩
  cases hb : w.s3 cfg.sourceBucket key with
  | none =>
    exact ⟨[Call.get cfg.sourceRoleArn cfg.sourceBucketRegion cfg.sourceBucket key],
      by simp [copyFile, downloadFile, osCreate, sdkDownload, hc, hp, hb], by simp [callOk]⟩
  | some b =>
    refine ⟨[Call.get cfg.sourceRoleArn cfg.sourceBucketRegion cfg.sourceBucket key,
      Call.put cfg.targetRoleArn cfg.targetBucketRegion cfg.targetBucket
        ("copy_" ++ key) b], ?_, by simp [callOk]⟩
    by_cases hu : env.permits
        (w.calls ++ [Call.get cfg.sourceRoleArn cfg.sourceBucketRegion cfg.sourceBucket key])
        (Call.put cfg.targetRoleArn cfg.targetBucketRegion cfg.targetBucket
          ("copy_" ++ key) b) = true <;>
    simp [copyFile, downloadFile, osCreate, sdkDownload, uploadFile, osOpen, sdkUpload,
      osRemove, writeFile, removeFile, hc, hp, hb, hu]

/-- The requests `deleteFile` sends with the handler's arguments all carry the
target identity. -/
theorem deleteFile_calls (env : Env) (cfg : Config) (key : String) (w : World) :
    ∃ cs, (deleteFile env key cfg.targetRoleArn cfg.targetBucket
        cfg.targetBucketRegion w).2.calls = w.calls ++ cs ∧
      ∀ c ∈ cs, callOk cfg c := by
  by_cases hd : env.permits w.calls (Call.delete cfg.targetRoleArn cfg.targetBucketRegion
      cfg.targetBucket ("copy_" ++ key)) = true
  · refine ⟨[Call.delete cfg.targetRoleArn cfg.targetBucketRegion cfg.targetBucket
        ("copy_" ++ key),
      Call.waitNotExists cfg.targetRoleArn cfg.targetBucketRegion cfg.targetBucket
        ("copy_" ++ key)], ?_, by simp [callOk]⟩
    by_cases hw : env.permits
        (w.calls ++ [Call.delete cfg.targetRoleArn cfg.targetBucketRegion cfg.targetBucket
          ("copy_" ++ key)])
        (Call.waitNotExists cfg.targetRoleArn cfg.targetBucketRegion cfg.targetBucket
          ("copy_" ++ key)) = true <;>
    simp [deleteFile, sdkDeleteObject, sdkWaitUntilObjectNotExists, deleteObject, hd, hw]
  · exact ⟨[Call.delete cfg.targetRoleArn cfg.targetBucketRegion cfg.targetBucket
        ("copy_" ++ key)],
      by simp [deleteFile, sdkDeleteObject, hd], by simp [callOk]⟩

/-- Running the loop on a concatenation: the second part runs from where the
first part ended, unless the first part stopped early. -/
theorem handlerLoop_append (env : Env) (cfg : Config) (pre post : List Record) (w : World) :
    handlerLoop env cfg (pre ++ post) w =
      if (handlerLoop env cfg pre w).1 = .done
        then handlerLoop env cfg post (handlerLoop env cfg pre w).2
        else handlerLoop env cfg pre w := by
  induction pre generalizing w with
  | nil => simp [handlerLoop]
  | cons v rest ih =>
    rw [List.cons_append]
    simp only [handlerLoop]
    by_cases h1 : v.eventSource ≠ "aws:s3"
    · simp only [if_pos h1]
      exact ih w
    simp only [if_neg h1]
    by_cases h2 : v.bucketName ≠ cfg.sourceBucket
    · simp only [if_pos h2]
      exact ih w
    simp only [if_neg h2]
    by_cases h3 : v.eventName = "ObjectCreated:Put"
    · simp only [if_pos h3]
      generalize copyFile _ _ _ _ _ _ _ _ _ = r
      rcases r with ⟨_ | _, w2⟩
      · simp
      · exact ih w2
    simp only [if_neg h3]
    by_cases h4 : v.eventName = "ObjectRemoved:Delete"
    · simp only [if_pos h4]
      generalize deleteFile _ _ _ _ _ _ = r
      rcases r with ⟨_ | _, w2⟩
      · simp
      · exact ih w2
    simp only [if_neg h4]
    exact ih w

theorem handlerLoop_skip_cons (env : Env) (cfg : Config) (r : Record) (rest : List Record)
    (w : World)
    (h : r.eventSource ≠ "aws:s3" ∨ r.bucketName ≠ cfg.sourceBucket ∨
      (r.eventName ≠ "ObjectCreated:Put" ∧ r.eventName ≠ "ObjectRemoved:Delete")) :
    handlerLoop env cfg (r :: rest) w = handlerLoop env cfg rest w := by
  simp only [handlerLoop]
  by_cases h1 : r.eventSource ≠ "aws:s3"
  · simp only [if_pos h1]
  simp only [if_neg h1]
  by_cases h2 : r.bucketName ≠ cfg.sourceBucket
  · simp only [if_pos h2]
  simp only [if_neg h2]
  rcases h with h | h | ⟨h3, h4⟩
  · exact absurd h h1
  · exact absurd h h2
  · simp only [if_neg h3, if_neg h4]

theorem handlerLoop_skip (env : Env) (cfg : Config) (pre : List Record) (r : Record)
    (post : List Record) (w : World)
    (h : r.eventSource ≠ "aws:s3" ∨ r.bucketName ≠ cfg.sourceBucket ∨
      (r.eventName ≠ "ObjectCreated:Put" ∧ r.eventName ≠ "ObjectRemoved:Delete")) :
    handlerLoop env cfg (pre ++ r :: post) w = handlerLoop env cfg (pre ++ post) w := by
  rw [handlerLoop_append, handlerLoop_append env cfg pre post, handlerLoop_skip_cons _ _ _ _ _ h]

/-- C8: a record whose event source is not "aws:s3", or whose bucket is not the
configured source bucket, is passed over whatever its event name: processed on
its own it leaves the world as it was (no action invoked, no request sent) and
the loop ends normally; at any position of a notification, the run is the run of
the notification without that record. -/
theorem handlerLoop_filtered_record (env : Env) (cfg : Config) (pre : List Record)
    (r : Record) (post : List Record) (w : World)
    (h : r.eventSource ≠ "aws:s3" ∨ r.bucketName ≠ cfg.sourceBucket) :
    handlerLoop env cfg [r] w = (.done, w) ∧
    handlerLoop env cfg (pre ++ r :: post) w = handlerLoop env cfg (pre ++ post) w := by
  have h3 : r.eventSource ≠ "aws:s3" ∨ r.bucketName ≠ cfg.sourceBucket ∨
      (r.eventName ≠ "ObjectCreated:Put" ∧ r.eventName ≠ "ObjectRemoved:Delete") := by
    rcases h with h | h
    · exact Or.inl h
    · exact Or.inr (Or.inl h)
  refine ⟨?_, handlerLoop_skip env cfg pre r post w h3⟩
  rw [handlerLoop_skip_cons _ _ _ _ _ h3]
  rfl

theorem handlerLoop_filtered_record_witness :
    (otherBucketRecord.eventSource ≠ "aws:s3" ∨
      otherBucketRecord.bucketName ≠ okCfg.sourceBucket) ∧
    handlerLoop okEnv okCfg [otherBucketRecord] sampleWorld = (.done, sampleWorld) ∧
    handlerLoop okEnv okCfg
      ([putRecord "src" "a.txt"] ++ otherBucketRecord :: [deleteRecord "src" "a.txt"])
      sampleWorld =
      handlerLoop okEnv okCfg ([putRecord "src" "a.txt"] ++ [deleteRecord "src" "a.txt"])
        sampleWorld :=
  ⟨Or.inr (by decide),
    handlerLoop_filtered_record okEnv okCfg [putRecord "src" "a.txt"] otherBucketRecord
      [deleteRecord "src" "a.txt"] sampleWorld (Or.inr (by decide))⟩

/-- C7: a record that passes the source and bucket filters and whose event name
is neither "ObjectCreated:Put" nor "ObjectRemoved:Delete" is passed over:
processed on its own it leaves the world as it was (no action invoked, no
request sent) and the loop ends normally; at any position of a notification, the
run is the run of the notification without that record. -/
theorem handlerLoop_unrecognized_event (env : Env) (cfg : Config) (pre : List Record)
    (r : Record) (post : List Record) (w : World)
    (hsource : r.eventSource = "aws:s3") (hbucket : r.bucketName = cfg.sourceBucket)
    (hput : r.eventName ≠ "ObjectCreated:Put") (hdelete : r.eventName ≠ "ObjectRemoved:Delete") :
    handlerLoop env cfg [r] w = (.done, w) ∧
    handlerLoop env cfg (pre ++ r :: post) w = handlerLoop env cfg (pre ++ post) w := by
  have hstep : ∀ (rest : List Record) (w1 : World),
      handlerLoop env cfg (r :: rest) w1 = handlerLoop env cfg rest w1 := by
    intro rest w1
    simp [handlerLoop, hsource, hbucket, hput, hdelete]
  refine ⟨?_, ?_⟩
  · rw [hstep]
    rfl
  · rw [handlerLoop_append, handlerLoop_append env cfg pre post, hstep]

theorem handlerLoop_unrecognized_event_witness :
    handlerLoop okEnv okCfg [multipartRecord] sampleWorld = (.done, sampleWorld) ∧
    handlerLoop okEnv okCfg
      ([putRecord "src" "a.txt"] ++ multipartRecord :: [deleteRecord "src" "a.txt"])
      sampleWorld =
      handlerLoop okEnv okCfg ([putRecord "src" "a.txt"] ++ [deleteRecord "src" "a.txt"])
        sampleWorld :=
  handlerLoop_unrecognized_event okEnv okCfg [putRecord "src" "a.txt"] multipartRecord
    [deleteRecord "src" "a.txt"] sampleWorld rfl rfl (by decide) (by decide)

/-- C6: when the records before position i have been processed without a
failure, leaving the world `w1`, and the record at position i passes the filters
and its `copyFile` or `deleteFile` fails there, the handler returns at once: the
run of the whole notification is the run of the notification cut after position
i, it ends in `aborted`, and the world it leaves is the one the failed action
left, whose invocations are those made for the records before i followed by the
single failed one; the records after i contribute nothing. -/
theorem handlerLoop_aborts (env : Env) (cfg : Config) (pre : List Record) (r : Record)
    (post : List Record) (w w1 : World)
    (hpre : handlerLoop env cfg pre w = (.done, w1))
    (hsource : r.eventSource = "aws:s3") (hbucket : r.bucketName = cfg.sourceBucket)
    (hfail :
      (r.eventName = "ObjectCreated:Put" ∧
        ∃ e, (copyFile env r.bucketName r.key cfg.sourceRoleArn cfg.sourceBucketRegion
          cfg.targetRoleArn cfg.targetBucket cfg.targetBucketRegion
          (invoked (Action.copy r.bucketName r.key) w1)).1 = .error e) ∨
      (r.eventName = "ObjectRemoved:Delete" ∧
        ∃ e, (deleteFile env r.key cfg.targetRoleArn cfg.targetBucket
          cfg.targetBucketRegion (invoked (Action.delete r.key) w1)).1 = .error e)) :
    handlerLoop env cfg (pre ++ r :: post) w = handlerLoop env cfg (pre ++ [r]) w ∧
    handlerLoop env cfg (pre ++ r :: post) w = handlerLoop env cfg [r] w1 ∧
    (handlerLoop env cfg (pre ++ r :: post) w).1 = .aborted ∧
    (handlerLoop env cfg (pre ++ r :: post) w).2.actions =
      w1.actions ++ [if r.eventName = "ObjectCreated:Put"
        then Action.copy r.bucketName r.key else Action.delete r.key] ∧
    ∃ cs, (handlerLoop env cfg (pre ++ r :: post) w).2.calls = w1.calls ++ cs := by
  have hstep : ∀ rest : List Record,
      handlerLoop env cfg (pre ++ r :: rest) w = handlerLoop env cfg (r :: rest) w1 := by
    intro rest
    rw [handlerLoop_append, hpre]
    simp
  have hns : ¬ r.eventSource ≠ "aws:s3" := not_not.mpr hsource
  have hnb : ¬ r.bucketName ≠ cfg.sourceBucket := not_not.mpr hbucket
  rcases hfail with ⟨hput, e, he⟩ | ⟨hdel, e, he⟩
  · have hact := copyFile_actions env r.bucketName r.key cfg.sourceRoleArn
      cfg.sourceBucketRegion cfg.targetRoleArn cfg.targetBucket cfg.targetBucketRegion
      (invoked (Action.copy r.bucketName r.key) w1)
    obtain ⟨cs, hcs, -⟩ := copyFile_calls env cfg r.bucketName r.key
      (invoked (Action.copy r.bucketName r.key) w1) hbucket
    have hcons : ∀ rest : List Record,
        handlerLoop env cfg (r :: rest) w1 =
          (.aborted, (copyFile env r.bucketName r.key cfg.sourceRoleArn
            cfg.sourceBucketRegion cfg.targetRoleArn cfg.targetBucket cfg.targetBucketRegion
            (invoked (Action.copy r.bucketName r.key) w1)).2) := by
      intro rest
      simp only [handlerLoop, if_neg hns, if_neg hnb, if_pos hput]
      revert he
      generalize copyFile _ _ _ _ _ _ _ _ _ = res
      rcases res with ⟨_ | _, w2⟩ <;> simp
    refine ⟨?_, ?_, ?_, ?_, cs, ?_⟩
    · rw [hstep, hstep, hcons, hcons]
    · rw [hstep, hcons, hcons]
    · rw [hstep, hcons]
    · rw [hstep, hcons, if_pos hput]
      simpa [invoked] using hact
    · rw [hstep, hcons]
      simpa [invoked] using hcs
  · have hnp : ¬ r.eventName = "ObjectCreated:Put" := by
      rw [hdel]
      decide
    have hact := deleteFile_actions env r.key cfg.targetRoleArn cfg.targetBucket
      cfg.targetBucketRegion (invoked (Action.delete r.key) w1)
    obtain ⟨cs, hcs, -⟩ := deleteFile_calls env cfg r.key (invoked (Action.delete r.key) w1)
    have hcons : ∀ rest : List Record,
        handlerLoop env cfg (r :: rest) w1 =
          (.aborted, (deleteFile env r.key cfg.targetRoleArn cfg.targetBucket
            cfg.targetBucketRegion (invoked (Action.delete r.key) w1)).2) := by
      intro rest
      simp only [handlerLoop, if_neg hns, if_neg hnb, if_neg hnp, if_pos hdel]
      revert he
      generalize deleteFile _ _ _ _ _ _ = res
      rcases res with ⟨_ | _, w2⟩ <;> simp
    refine ⟨?_, ?_, ?_, ?_, cs, ?_⟩
    · rw [hstep, hstep, hcons, hcons]
    · rw [hstep, hcons, hcons]
    · rw [hstep, hcons]
    · rw [hstep, hcons, if_neg hnp]
      simpa [invoked] using hact
    · rw [hstep, hcons]
      simpa [invoked] using hcs

theorem handlerLoop_aborts_witness :
    handlerLoop deleteDeniedEnv okCfg [putRecord "src" "a.txt"] sampleWorld =
      (.done, afterPutWorld) ∧
    (deleteFile deleteDeniedEnv "a.txt" "role-t" "dst" "eu-west-1"
      (invoked (Action.delete "a.txt") afterPutWorld)).1 =
      .error (.unableToDelete "copy_a.txt" "dst") ∧
    handlerLoop deleteDeniedEnv okCfg
      ([putRecord "src" "a.txt"] ++ deleteRecord "src" "a.txt" :: [putRecord "src" "b.txt"])
      sampleWorld =
      handlerLoop deleteDeniedEnv okCfg
        ([putRecord "src" "a.txt"] ++ [deleteRecord "src" "a.txt"]) sampleWorld :=
  ⟨rfl, rfl,
    (handlerLoop_aborts deleteDeniedEnv okCfg [putRecord "src" "a.txt"]
      (deleteRecord "src" "a.txt") [putRecord "src" "b.txt"] sampleWorld afterPutWorld
      rfl rfl rfl (Or.inr ⟨rfl, _, rfl⟩)).1⟩

/-! ## Identities -/

theorem handlerLoop_calls (env : Env) (cfg : Config) (records : List Record) (w : World) :
    ∃ cs, (handlerLoop env cfg records w).2.calls = w.calls ++ cs ∧
      ∀ c ∈ cs, callOk cfg c := by
  induction records generalizing w with
  | nil => exact ⟨[], by simp [handlerLoop], by simp⟩
  | cons v rest ih =>
    simp only [handlerLoop]
    by_cases h1 : v.eventSource ≠ "aws:s3"
    · simp only [if_pos h1]
      exact ih w
    simp only [if_neg h1]
    by_cases h2 : v.bucketName ≠ cfg.sourceBucket
    · simp only [if_pos h2]
      exact ih w
    simp only [if_neg h2]
    by_cases h3 : v.eventName = "ObjectCreated:Put"
    · simp only [if_pos h3]
      obtain ⟨cs1, e1, ok1⟩ := copyFile_calls env cfg v.bucketName v.key
        (invoked (Action.copy v.bucketName v.key) w) (not_not.mp h2)
      revert e1
      generalize copyFile _ _ _ _ _ _ _ _ _ = res
      rcases res with ⟨_ | _, w2⟩
      · intro e1
        exact ⟨cs1, by simpa [invoked] using e1, ok1⟩
      · intro e1
        obtain ⟨cs2, e2, ok2⟩ := ih w2
        have e1' : w2.calls = w.calls ++ cs1 := by simpa [invoked] using e1
        refine ⟨cs1 ++ cs2, ?_, ?_⟩
        · show (handlerLoop env cfg rest w2).2.calls = w.calls ++ (cs1 ++ cs2)
          rw [e2, e1', List.append_assoc]
        · intro c hc
          rcases List.mem_append.mp hc with h | h
          · exact ok1 c h
          · exact ok2 c h
    simp only [if_neg h3]
    by_cases h4 : v.eventName = "ObjectRemoved:Delete"
    · simp only [if_pos h4]
      obtain ⟨cs1, e1, ok1⟩ := deleteFile_calls env cfg v.key
        (invoked (Action.delete v.key) w)
      revert e1
      generalize deleteFile _ _ _ _ _ _ = res
      rcases res with ⟨_ | _, w2⟩
      · intro e1
        exact ⟨cs1, by simpa [invoked] using e1, ok1⟩
      · intro e1
        obtain ⟨cs2, e2, ok2⟩ := ih w2
        have e1' : w2.calls = w.calls ++ cs1 := by simpa [invoked] using e1
        refine ⟨cs1 ++ cs2, ?_, ?_⟩
        · show (handlerLoop env cfg rest w2).2.calls = w.calls ++ (cs1 ++ cs2)
          rw [e2, e1', List.append_assoc]
        · intro c hc
          rcases List.mem_append.mp hc with h | h
          · exact ok1 c h
          · exact ok2 c h
    simp only [if_neg h4]
    exact ih w

theorem callOk_not_crossesIdentity (cfg : Config) (c : Call)
    (hroles : cfg.sourceRoleArn ≠ cfg.targetRoleArn) (h : callOk cfg c) :
    ¬ crossesIdentity cfg c := by
  cases c with
  | get roleArn region bucket key =>
    intro hx
    exact hroles (h.1.symm.trans hx)
  | put roleArn region bucket key body =>
    intro hx
    exact hroles (hx.symm.trans h.1)
  | delete roleArn region bucket key =>
    intro hx
    exact hroles (hx.symm.trans h.1)
  | waitNotExists roleArn region bucket key =>
    intro hx
    exact hroles (hx.symm.trans h.1)

/-- C10: with the six settings present and a body that decodes, every request
the handler sends is made with the identity the configuration assigns to its
kind: each read carries the source role and source region and names the source
bucket; each write, delete and wait for absence carries the target role and
target region and names the target bucket. When the two roles differ, no write,
delete or wait carries the source role and no read carries the target role. -/
theorem handler_calls_identity (env : Env) (cfg : Config) (body : String)
    (records : List Record) (w : World)
    (hparse : env.unmarshal body = .ok records) (hcfg : Configured env cfg) :
    ∃ cs, (handler env body w).2.calls = w.calls ++ cs ∧
      (∀ c ∈ cs, callOk cfg c) ∧
      (cfg.sourceRoleArn ≠ cfg.targetRoleArn → ∀ c ∈ cs, ¬ crossesIdentity cfg c) := by
  rw [handler_configured env cfg body records w hparse hcfg]
  obtain ⟨cs, hcs, hok⟩ := handlerLoop_calls env cfg records
    { w with envReads := w.envReads ++ settingNames }
  exact ⟨cs, hcs, hok, fun hroles c hc =>
    callOk_not_crossesIdentity cfg c hroles (hok c hc)⟩

theorem okEnv_configured : Configured okEnv okCfg := by
  refine ⟨⟨rfl, ?_⟩, ⟨rfl, ?_⟩, ⟨rfl, ?_⟩, ⟨rfl, ?_⟩, ⟨rfl, ?_⟩, ⟨rfl, ?_⟩⟩ <;> decide

theorem handler_calls_identity_witness :
    okEnv.unmarshal "" = .ok [putRecord "src" "a.txt", deleteRecord "src" "a.txt"] ∧
    (handler okEnv "" sampleWorld).2.calls =
      [Call.get "role-s" "us-west-2" "src" "a.txt",
        Call.put "role-t" "eu-west-1" "dst" "copy_a.txt" [1, 2, 3],
        Call.delete "role-t" "eu-west-1" "dst" "copy_a.txt",
        Call.waitNotExists "role-t" "eu-west-1" "dst" "copy_a.txt"] ∧
    ∃ cs, (handler okEnv "" sampleWorld).2.calls = sampleWorld.calls ++ cs ∧
      (∀ c ∈ cs, callOk okCfg c) ∧
      (okCfg.sourceRoleArn ≠ okCfg.targetRoleArn → ∀ c ∈ cs, ¬ crossesIdentity okCfg c) :=
  ⟨rfl, rfl, handler_calls_identity okEnv okCfg "" _ sampleWorld rfl okEnv_configured⟩

/-! ## Round trip -/

theorem deleteObject_putObject (s3 : String → String → Option Bytes) (bucket key : String)
    (b : Bytes) (h : s3 bucket key = none) :
    deleteObject (putObject s3 bucket key b) bucket key bucket = s3 bucket := by
  funext k
  by_cases hk : k = key
  · subst hk
    simp [deleteObject, putObject, h]
  · simp [deleteObject, putObject, hk]

theorem deleteObject_self (s3 : String → String → Option Bytes) (bucket key : String) :
    deleteObject s3 bucket key bucket key = none := by
  simp [deleteObject]

/-- C4: with the six settings present and a store that accepts every request,
a notification made of an "ObjectCreated:Put" record followed by an
"ObjectRemoved:Delete" record for the same key of the source bucket leaves the
target bucket with exactly the objects it had, provided it had no object named
"copy_" + key: the object the delete removes is the one the copy wrote. -/
theorem handler_put_then_delete (env : Env) (cfg : Config) (body key : String) (w : World)
    (hcfg : Configured env cfg)
    (hparse : env.unmarshal body =
      .ok [putRecord cfg.sourceBucket key, deleteRecord cfg.sourceBucket key])
    (hpermits : ∀ history c, env.permits history c = true)
    (hfresh : w.s3 cfg.targetBucket ("copy_" ++ key) = none) :
    (handler env body w).2.s3 cfg.targetBucket = w.s3 cfg.targetBucket := by
  rw [handler_configured env cfg body _ w hparse hcfg]
  have hne : ¬ ("ObjectRemoved:Delete" = "ObjectCreated:Put") := by decide
  by_cases hc : env.creatable ("copy_" ++ key) = true
  swap
  · simp [handlerLoop, putRecord, deleteRecord, invoked, copyFile, downloadFile, osCreate, hc]
  cases hb : w.s3 cfg.sourceBucket key with
  | none =>
    simp [handlerLoop, putRecord, deleteRecord, invoked, copyFile, downloadFile, osCreate,
      sdkDownload, hc, hb, hpermits]
  | some b =>
    simp [handlerLoop, putRecord, deleteRecord, invoked, copyFile, downloadFile, osCreate,
      sdkDownload, uploadFile, osOpen, sdkUpload, osRemove, writeFile, removeFile,
      deleteFile, sdkDeleteObject, sdkWaitUntilObjectNotExists, deleteObject_self, hc, hb,
      hpermits, hne]
    exact deleteObject_putObject w.s3 cfg.targetBucket ("copy_" ++ key) b hfresh

theorem handler_put_then_delete_witness :
    okEnv.unmarshal "" = .ok [putRecord okCfg.sourceBucket "a.txt",
      deleteRecord okCfg.sourceBucket "a.txt"] ∧
    sampleWorld.s3 okCfg.targetBucket ("copy_" ++ "a.txt") = none ∧
    (handler okEnv "" sampleWorld).1 = .done ∧
    (handler okEnv "" sampleWorld).2.actions =
      [Action.copy "src" "a.txt", Action.delete "a.txt"] ∧
    (handler okEnv "" sampleWorld).2.s3 okCfg.targetBucket = sampleWorld.s3 okCfg.targetBucket :=
  ⟨rfl, rfl, rfl, rfl,
    handler_put_then_delete okEnv okCfg "" "a.txt" sampleWorld okEnv_configured rfl
      (fun _ _ => rfl) rfl⟩

end SyncUpS3Bucket
